import Mathlib

/-!
Verification of the Kotlin bindings generator fragment
(`src/bindings/kotlin/gen_kotlin.rs`).

The development has two layers:

1. A shallow embedding of the Rust filter functions in `mod filters`
   (`decl_c_argument`, `decl_c_return`, `decl_kt`, `lower_kt`, `lift_kt`,
   `deserialize_item_kt`), which map a `TypeReference` to emitted Kotlin
   source fragments.  The `panic!` in each wildcard arm is modelled as an
   `Except.error` carrying the panic message.

2. A shallow embedding of the runtime semantics of the Kotlin helper code
   emitted by the template (the `serializeForRustSize` / `serializeForRustInto`
   extensions, the generated record and enum members, `serializeForRust`,
   and `deserializeFromRust`), as executable functions over an explicit
   value domain `KValue` mirroring the Kotlin runtime (JVM `null` is a
   single flat value: Kotlin's `T??` collapses to `T?`, so nested
   "Some(None)" values are not representable at the host surface).

   The generic extension `fun<T> T?.serializeForRustInto(buf)` (template
   lines 132-143) branches on the runtime value: `null` writes the single
   byte 0 regardless of how many `Optional` layers the static type has,
   and a non-null value writes the byte 1 followed by the value's own
   serialization.  The recursive call `this.serializeForRustInto(buf)` in
   its non-null branch is modelled as dispatching on the runtime class of
   the receiver (the evident intent of the template).  Kotlin's actual
   static overload resolution would re-select the generic extension itself
   and diverge for every present value; that stricter reading only
   strengthens the negative results proved below, so the charitable
   dynamic-dispatch reading is used throughout.
-/

namespace GenKotlin

/-- Modelled from the spec: the interface model (`crate::interface`) is not
part of the fragment; its closed type grammar is given by section 3 of the
spec and by the exhaustive match arms of the filters in
`gen_kotlin.rs` (lines 310-324). -/
inductive TypeReference where
  | Boolean
  | U32
  | U64
  | Float
  | Double
  | String
  | Bytes
  | Enum (name : String)
  | Record (name : String)
  | Optional (inner : TypeReference)
  | Object (name : String)
deriving DecidableEq, Repr

/-- Rust `{:?}` (derived `Debug`) rendering of a `TypeReference`, as used by
the `panic!` format strings in the filters.  Modelled from the spec: the
interface model's derive is outside the fragment; this is the standard
derived `Debug` format for such an enum. -/
def tyDebug : TypeReference → String
  | .Boolean => "Boolean"
  | .U32 => "U32"
  | .U64 => "U64"
  | .Float => "Float"
  | .Double => "Double"
  | .String => "String"
  | .Bytes => "Bytes"
  | .Enum name => "Enum(\"" ++ name ++ "\")"
  | .Record name => "Record(\"" ++ name ++ "\")"
  | .Optional t => "Optional(" ++ tyDebug t ++ ")"
  | .Object name => "Object(\"" ++ name ++ "\")"

/-- Filter `decl_c_argument` (gen_kotlin.rs lines 310-324).  The wildcard
arm's `panic!("[TODO: decl_c_argument({:?})]", type_)` is modelled as an
error value carrying the panic message. -/
def decl_c_argument : TypeReference → Except String String
  | .Boolean => .ok "Byte"
  | .U32 => .ok "Int"
  | .U64 => .ok "Long"
  | .Float => .ok "Float"
  | .Double => .ok "Double"
  | .String => .ok "String"
  | .Bytes => .ok "RustBuffer.ByValue"
  | .Enum _ => .ok "Int"
  | .Record _ => .ok "RustBuffer.ByValue"
  | .Optional _ => .ok "RustBuffer.ByValue"
  | t => .error ("[TODO: decl_c_argument(" ++ tyDebug t ++ ")]")

/-- Filter `decl_c_return` (gen_kotlin.rs lines 326-331). -/
def decl_c_return : TypeReference → Except String String
  | .String => .ok "String"
  | t => decl_c_argument t

/-- Filter `decl_kt` (gen_kotlin.rs lines 333-341). -/
def decl_kt : TypeReference → Except String String
  | .Boolean => .ok "Boolean"
  | .Enum name => .ok name
  | .Record name => .ok name
  | .Optional t => do
      let inner ← decl_kt t
      pure (inner ++ "?")
  | t => decl_c_argument t

/-- Filter `lower_kt` (gen_kotlin.rs lines 343-358).  The wildcard arm's
`panic!("[TODO: LOWER_KT {:?}]", type_)` is modelled as an error value. -/
def lower_kt (nm : String) : TypeReference → Except String String
  | .Boolean => .ok ("(if (" ++ nm ++ ") \x7b 1 \x7d else \x7b 0 \x7d)")
  | .U32 => .ok nm
  | .U64 => .ok nm
  | .Float => .ok nm
  | .Double => .ok nm
  | .String => .ok nm
  | .Bytes => .ok nm
  | .Enum _ => .ok (nm ++ ".ordinal")
  | .Record _ => .ok (nm ++ ".serializeForRust()")
  | .Optional _ => .ok (nm ++ ".serializeForRust()")
  | t => .error ("[TODO: LOWER_KT " ++ tyDebug t ++ "]")

/-- Filter `deserialize_item_kt` (gen_kotlin.rs lines 378-387). -/
def deserialize_item_kt (nm : String) : TypeReference → Except String String
  | .Optional t => do
      let inner ← deserialize_item_kt nm t
      pure ("(if (Boolean.deserializeItemFromRust(" ++ nm ++ ")) \x7b " ++
        inner ++ " \x7d else \x7b null \x7d)")
  | t => do
      let d ← decl_kt t
      pure (d ++ ".deserializeItemFromRust(" ++ nm ++ ")")

/-- Filter `lift_kt` (gen_kotlin.rs lines 360-376).  The wildcard arm's
`panic!("[TODO: LIFT_KT {:?}]", type_)` is modelled as an error value. -/
def lift_kt (nm : String) : TypeReference → Except String String
  | .Boolean => .ok ("(" ++ nm ++ " != 0)")
  | .U32 => .ok nm
  | .U64 => .ok nm
  | .Float => .ok nm
  | .Double => .ok nm
  | .String => .ok nm
  | .Enum type_name => .ok (type_name ++ ".fromOrdinal(" ++ nm ++ ")")
  | .Record name => do
      let inner ← deserialize_item_kt "buf" (.Record name)
      pure ("deserializeFromRust(" ++ nm ++ ") \x7b buf -> " ++ inner ++ " \x7d")
  | .Optional t => do
      let inner ← deserialize_item_kt "buf" (.Optional t)
      pure ("deserializeFromRust(" ++ nm ++ ") \x7b buf -> " ++ inner ++ " \x7d")
  | t => .error ("[TODO: LIFT_KT " ++ tyDebug t ++ "]")

/-! ## Runtime semantics of the emitted Kotlin helper code -/

/-- Modelled from the spec (section 3): a record definition is a name plus an
ordered sequence of (field name, type) pairs; the definition itself lives in
the interface model outside the fragment.  The generated Kotlin data class is
produced from it by the record template (gen_kotlin.rs lines 214-253). -/
abbrev FieldDef := String × TypeReference

/-- Record definitions in scope, by name. -/
abbrev RecordEnv := List (String × List FieldDef)

/-- Look up a record definition by name. -/
def lookupRecord (env : RecordEnv) (name : String) : Option (List FieldDef) :=
  (env.find? (fun r => r.1 == name)).map (fun r => r.2)

/-- Kotlin runtime values relevant to the emitted codec.  JVM `null` is a
single flat value (`vNull`): Kotlin's `T??` is the same type as `T?`, so a
nested present-absent value has no distinct representation.  Numeric values
are carried by their fixed-width big-endian bit patterns, which is exactly
what `ByteBuffer.putInt` / `putFloat` / `putDouble` write. -/
inductive KValue where
  | vNull
  | vBool (b : Bool)
  | vInt (bits : Nat)
  | vLong (bits : Nat)
  | vFloat (bits : Nat)
  | vDouble (bits : Nat)
  | vString (s : String)
  | vRecord (name : String) (fields : List KValue)

/-- Big-endian 4-byte encoding of a 32-bit pattern
(`ByteBuffer.putInt` with `ByteOrder.BIG_ENDIAN`, template lines 79-85, 104-106). -/
def be4 (n : Nat) : List Nat :=
  [n % 2 ^ 32 / 2 ^ 24, n % 2 ^ 24 / 2 ^ 16, n % 2 ^ 16 / 2 ^ 8, n % 2 ^ 8]

/-- Big-endian 8-byte encoding of a 64-bit pattern (`ByteBuffer.putDouble`). -/
def be8 (n : Nat) : List Nat :=
  [n % 2 ^ 64 / 2 ^ 56, n % 2 ^ 56 / 2 ^ 48, n % 2 ^ 48 / 2 ^ 40, n % 2 ^ 40 / 2 ^ 32,
   n % 2 ^ 32 / 2 ^ 24, n % 2 ^ 24 / 2 ^ 16, n % 2 ^ 16 / 2 ^ 8, n % 2 ^ 8]

/-- Big-endian 4-byte decoding (`ByteBuffer.getInt`). -/
def fromBe4 (b0 b1 b2 b3 : Nat) : Nat :=
  b0 % 2 ^ 8 * 2 ^ 24 + b1 % 2 ^ 8 * 2 ^ 16 + b2 % 2 ^ 8 * 2 ^ 8 + b3 % 2 ^ 8

/-- Big-endian 8-byte decoding (`ByteBuffer.getDouble`, as a bit pattern). -/
def fromBe8 (b0 b1 b2 b3 b4 b5 b6 b7 : Nat) : Nat :=
  fromBe4 b0 b1 b2 b3 * 2 ^ 32 + fromBe4 b4 b5 b6 b7

/-- A serialization call in the emitted Kotlin helper code.
`typed t v` is a call whose receiver has declared type `t` (Kotlin picks the
specific `Int` / `Float` / `Double` extension or the generated record member
when one matches the declared type, and otherwise the generic
`T?.serializeForRust...` extension, the only remaining applicable candidate);
`nullable v` is a call that resolved to the generic `T?.serializeForRust...`
extension; `dyn v` is the recursive call inside that extension's non-null
branch, modelled as dispatching on the runtime class of the receiver;
`fieldsOf fs vs` is the field-by-field body of a generated record member. -/
inductive SerCall where
  | typed (t : TypeReference) (v : KValue)
  | nullable (v : KValue)
  | dyn (v : KValue)
  | fieldsOf (fs : List FieldDef) (vs : List KValue)

/-- Semantics of the emitted `serializeForRustSize` helpers
(template lines 100-101, 112-113, 124-125, 132-135 and record lines 241-246):
`Int`/`Float` are 4 bytes, `Double` is 8, the generic nullable extension is
1 byte for `null` and 1 + the value's own size otherwise, and a record is the
sum of its fields' sizes.  A receiver with no applicable helper (e.g. a
`Long`, `Boolean` or `String` value reached through the generic extension)
yields `none`.  `fuel` bounds the recursion depth through named records. -/
def serializeForRustSize (env : RecordEnv) : Nat → SerCall → Option Nat
  | 0, _ => none
  | fuel + 1, .typed t v =>
    match t with
    | .U32 =>
      match v with
      | .vInt _ => some 4
      | _ => none
    | .Float =>
      match v with
      | .vFloat _ => some 4
      | _ => none
    | .Double =>
      match v with
      | .vDouble _ => some 8
      | _ => none
    | .Record name =>
      match v with
      | .vRecord _ fvals =>
        match lookupRecord env name with
        | none => none
        | some fields => serializeForRustSize env fuel (.fieldsOf fields fvals)
      | _ => none
    | _ => serializeForRustSize env fuel (.nullable v)
  | fuel + 1, .nullable v =>
    match v with
    | .vNull => some 1
    | v =>
      match serializeForRustSize env fuel (.dyn v) with
      | none => none
      | some n => some (1 + n)
  | fuel + 1, .dyn v =>
    match v with
    | .vInt _ => some 4
    | .vFloat _ => some 4
    | .vDouble _ => some 8
    | .vRecord name fvals =>
      match lookupRecord env name with
      | none => none
      | some fields => serializeForRustSize env fuel (.fieldsOf fields fvals)
    | _ => none
  | fuel + 1, .fieldsOf fs vs =>
    match fs, vs with
    | [], [] => some 0
    | f :: fs', v :: vs' =>
      match serializeForRustSize env fuel (.typed f.2 v),
            serializeForRustSize env fuel (.fieldsOf fs' vs') with
      | some a, some b => some (a + b)
      | _, _ => none
    | _, _ => none

/-- Semantics of the emitted `serializeForRustInto` helpers
(template lines 104-106, 116-118, 128-130, 137-143 and record lines 248-252),
as the list of bytes written: `Int`/`Float`/`Double` write their big-endian
bytes, the generic nullable extension writes the byte 0 for `null` and the
byte 1 followed by the value's own bytes otherwise, and a record writes its
fields in declaration order. -/
def serializeForRustInto (env : RecordEnv) : Nat → SerCall → Option (List Nat)
  | 0, _ => none
  | fuel + 1, .typed t v =>
    match t with
    | .U32 =>
      match v with
      | .vInt bits => some (be4 bits)
      | _ => none
    | .Float =>
      match v with
      | .vFloat bits => some (be4 bits)
      | _ => none
    | .Double =>
      match v with
      | .vDouble bits => some (be8 bits)
      | _ => none
    | .Record name =>
      match v with
      | .vRecord _ fvals =>
        match lookupRecord env name with
        | none => none
        | some fields => serializeForRustInto env fuel (.fieldsOf fields fvals)
      | _ => none
    | _ => serializeForRustInto env fuel (.nullable v)
  | fuel + 1, .nullable v =>
    match v with
    | .vNull => some [0]
    | v =>
      match serializeForRustInto env fuel (.dyn v) with
      | none => none
      | some bs => some (1 :: bs)
  | fuel + 1, .dyn v =>
    match v with
    | .vInt bits => some (be4 bits)
    | .vFloat bits => some (be4 bits)
    | .vDouble bits => some (be8 bits)
    | .vRecord name fvals =>
      match lookupRecord env name with
      | none => none
      | some fields => serializeForRustInto env fuel (.fieldsOf fields fvals)
    | _ => none
  | fuel + 1, .fieldsOf fs vs =>
    match fs, vs with
    | [], [] => some []
    | f :: fs', v :: vs' =>
      match serializeForRustInto env fuel (.typed f.2 v),
            serializeForRustInto env fuel (.fieldsOf fs' vs') with
      | some a, some b => some (a ++ b)
      | _, _ => none
    | _, _ => none

/-- Semantics of the decoder expressions generated by `deserialize_item_kt`
(gen_kotlin.rs lines 378-387) together with the emitted
`deserializeItemFromRust` helpers (template lines 88-98, 108-110, 120-122 and
record lines 221-227): an `Optional` reads one presence byte
(`Boolean.deserializeItemFromRust`) and, when it is non-zero, decodes the
inner type; scalars read their fixed big-endian widths; a record decodes its
fields sequentially in declaration order.  Types whose `decl_kt` target has
no `deserializeItemFromRust` companion (`Long`, `String`,
`RustBuffer.ByValue`, enum classes) yield `none`, as does exhausted
`fuel`. -/
def deserializeItem (env : RecordEnv) :
    Nat → TypeReference → List Nat → Option (KValue × List Nat)
  | 0, _, _ => none
  | fuel + 1, t, bs =>
    match t with
    | .Boolean =>
      match bs with
      | b :: rest => some (.vBool (b != 0), rest)
      | _ => none
    | .U32 =>
      match bs with
      | b0 :: b1 :: b2 :: b3 :: rest => some (.vInt (fromBe4 b0 b1 b2 b3), rest)
      | _ => none
    | .Float =>
      match bs with
      | b0 :: b1 :: b2 :: b3 :: rest => some (.vFloat (fromBe4 b0 b1 b2 b3), rest)
      | _ => none
    | .Double =>
      match bs with
      | b0 :: b1 :: b2 :: b3 :: b4 :: b5 :: b6 :: b7 :: rest =>
        some (.vDouble (fromBe8 b0 b1 b2 b3 b4 b5 b6 b7), rest)
      | _ => none
    | .Optional t' =>
      match bs with
      | b :: rest =>
        if b == 0 then some (.vNull, rest) else deserializeItem env fuel t' rest
      | _ => none
    | .Record name =>
      match lookupRecord env name with
      | none => none
      | some fields =>
        match fields.foldl
            (fun acc f =>
              match acc with
              | none => none
              | some (vs, rest) =>
                match deserializeItem env fuel f.2 rest with
                | none => none
                | some (v, rest') => some (vs ++ [v], rest'))
            (some ([], bs)) with
        | some (vs, rest) => some (.vRecord name vs, rest)
        | none => none
    | _ => none

/-! ## Buffer lifecycle (allocation / free traces) -/

/-- Calls into the two native buffer entry points
(`ci.ffi_bytebuffer_alloc()` / `ci.ffi_bytebuffer_free()`). -/
inductive FfiEvent where
  | alloc (id : Nat)
  | free (id : Nat)
deriving DecidableEq, Repr

/-- Semantics of `Any?.serializeForRust` (template lines 145-154) and the
identically shaped generated record member (lines 230-239): compute the size,
ask the native allocator for a buffer of that size, try to write into it, and
on any failure free the buffer and re-propagate.  `size` is the outcome of
the `serializeForRustSize` call (a failure there happens before allocation),
and `written` abstracts the outcome of the `serializeForRustInto` call on the
allocated buffer (any raised failure is `none`).  The result is the trace of
native buffer calls paired with the buffer contents handed to the foreign
call, `none` modelling a propagated exception. -/
def serializeForRust (size : Option Nat) (written : Option (List Nat)) :
    List FfiEvent × Option (List Nat) :=
  match size with
  | none => ([], none)
  | some _ =>
    match written with
    | some bs => ([.alloc 0], some bs)
    | none => ([.alloc 0, .free 0], none)

/-- Semantics of `deserializeFromRust` (template lines 156-167): decode the
item from the received buffer, throw if any bytes remain unread, and free the
buffer in a `finally` block on every path.  `decoded` is the outcome of the
item decoder on the buffer's bytes (a raised failure is `none`); the leftover
byte list plays the role of `buf.hasRemaining()`. -/
def deserializeFromRust (decoded : Option (KValue × List Nat)) :
    List FfiEvent × Option KValue :=
  match decoded with
  | none => ([.free 0], none)
  | some (v, rest) => if rest = [] then ([.free 0], some v) else ([.free 0], none)

/-- The full lowering path for a buffer-passed value of declared type `t`:
`lower_kt` emits `nm.serializeForRust()`, whose size and write steps are the
emitted helpers. -/
def lowerValue (env : RecordEnv) (fuel : Nat) (t : TypeReference) (v : KValue) :
    List FfiEvent × Option (List Nat) :=
  serializeForRust (serializeForRustSize env fuel (.typed t v))
    (serializeForRustInto env fuel (.typed t v))

/-- The full lifting path for a buffer received from a foreign call:
`lift_kt` emits `deserializeFromRust(nm) { buf -> ... }` with the decoder
generated by `deserialize_item_kt`. -/
def liftValue (env : RecordEnv) (fuel : Nat) (t : TypeReference) (bs : List Nat) :
    List FfiEvent × Option KValue :=
  deserializeFromRust (deserializeItem env fuel t bs)

/-- Round trip of a host value through the codec: lower it, send the bytes,
and lift them back.  `none` models a raised runtime failure on either leg. -/
def roundTrip (env : RecordEnv) (fuel : Nat) (t : TypeReference) (v : KValue) :
    Option KValue :=
  match (lowerValue env fuel t v).2 with
  | none => none
  | some bs => (liftValue env fuel t bs).2

/-! ## Enum ordinals -/

/-- Kotlin's `Enum.ordinal`, emitted by the `Enum` arm of `lower_kt`
(gen_kotlin.rs line 353): the 0-based declaration index of the value. -/
def kotlinEnumOrdinal (values : List String) (v : String) : Option Nat :=
  values.findIdx? (fun x => x == v)

/-- The generated `fromOrdinal` companion (template lines 199-210): a `when`
over the enum's values where the case labels are askama's 1-based
`loop.index`; the `else` arm throws (`none`). -/
def fromOrdinalAux : Int → List String → Int → Option String
  | _, [], _ => none
  | i, v :: rest, n => if n = i then some v else fromOrdinalAux (i + 1) rest n

/-- Entry point of the generated `fromOrdinal`: case labels start at 1. -/
def fromOrdinal (values : List String) (n : Int) : Option String :=
  fromOrdinalAux 1 values n

/-- Round trip of an enum value: lower it with the emitted `.ordinal`
expression, pass the integer through the foreign call, and lift it with the
generated `fromOrdinal`. -/
def enumRoundTrip (values : List String) (v : String) : Option String :=
  match kotlinEnumOrdinal values v with
  | none => none
  | some i => fromOrdinal values (Int.ofNat i)

/-! ## Emitted surface text fragments -/

/-- The scalar receiver types for which the emitted helper block declares
non-nullable `serializeForRustSize` / `serializeForRustInto` extensions
(template lines 100-130); the generic nullable extension (lines 132-143) is
emitted separately. -/
def scalarSerializerReceivers : List String := ["Int", "Float", "Double"]

/-- The per-field statements emitted by the record `serializeForRustInto`
template (lines 248-252): one call per field, unconditionally, regardless of
the field's type. -/
def recordSerializeIntoCalls (fields : List FieldDef) : List String :=
  fields.map (fun f => "this." ++ f.1 ++ ".serializeForRustInto(buf)")

/-- The name under which the template declares the JNA library interface
(template line 172). -/
def ffiLibraryInterfaceName : String := "_UniFFILib"

/-- The foreign-call statement emitted for a generated function wrapper that
has a return type (template line 267). -/
def wrapperCallWithReturn (ffiName : String) (args : List String) : String :=
  "val _retval = _UniFFILib.INSTANCE." ++ ffiName ++ "(" ++
    String.intercalate ", " args ++ ")"

/-- The foreign-call statement emitted for a generated function wrapper with
no return type (template line 282). -/
def wrapperCallNoReturn (ffiName : String) (args : List String) : String :=
  "UniFFILib.INSTANCE." ++ ffiName ++ "(" ++ String.intercalate ", " args ++ ")"

/-- The type-level names declared by the emitted source: the helper class
`RustBuffer` (line 72), the library interface `_UniFFILib` (line 172), and
one class per enum (line 194) and record (line 215) definition. -/
def emittedTypeDeclarations (enumNames recordNames : List String) : List String :=
  ["RustBuffer", "_UniFFILib"] ++ enumNames ++ recordNames

/-- Naive substring occurrence test on character lists, used to state what a
diagnostic message does and does not mention. -/
def startsWithChars : List Char → List Char → Bool
  | [], _ => true
  | _ :: _, [] => false
  | a :: as, b :: bs => a == b && startsWithChars as bs

/-- Whether `needle` occurs contiguously inside `hay`. -/
def occursIn (needle hay : List Char) : Bool :=
  match hay with
  | [] => needle.isEmpty
  | _ :: t => startsWithChars needle hay || occursIn needle t

/-! ## Helper lemmas -/

theorem length_be4 (n : Nat) : (be4 n).length = 4 := by simp [be4]

theorem length_be8 (n : Nat) : (be8 n).length = 8 := by simp [be8]

/-- The emitted `serializeForRustSize` and `serializeForRustInto` helpers are
structurally parallel: whenever the write step produces a byte list, the size
step produces exactly its length. -/
theorem size_into_agree (fuel : Nat) :
    ∀ (env : RecordEnv) (c : SerCall) (bs : List Nat),
      serializeForRustInto env fuel c = some bs →
      serializeForRustSize env fuel c = some bs.length := by
  induction fuel with
  | zero => intro env c bs h; simp [serializeForRustInto] at h
  | succ fuel ih =>
    intro env c bs h
    cases c with
    | typed t v =>
      cases t with
      | U32 =>
        cases v with
        | vInt b =>
          simp only [serializeForRustInto, serializeForRustSize,
            Option.some.injEq] at h ⊢
          subst h; simp [length_be4]
        | vNull => simp [serializeForRustInto] at h
        | vBool b => simp [serializeForRustInto] at h
        | vLong b => simp [serializeForRustInto] at h
        | vFloat b => simp [serializeForRustInto] at h
        | vDouble b => simp [serializeForRustInto] at h
        | vString s => simp [serializeForRustInto] at h
        | vRecord rn fv => simp [serializeForRustInto] at h
      | Float =>
        cases v with
        | vFloat b =>
          simp only [serializeForRustInto, serializeForRustSize,
            Option.some.injEq] at h ⊢
          subst h; simp [length_be4]
        | vNull => simp [serializeForRustInto] at h
        | vBool b => simp [serializeForRustInto] at h
        | vInt b => simp [serializeForRustInto] at h
        | vLong b => simp [serializeForRustInto] at h
        | vDouble b => simp [serializeForRustInto] at h
        | vString s => simp [serializeForRustInto] at h
        | vRecord rn fv => simp [serializeForRustInto] at h
      | Double =>
        cases v with
        | vDouble b =>
          simp only [serializeForRustInto, serializeForRustSize,
            Option.some.injEq] at h ⊢
          subst h; simp [length_be8]
        | vNull => simp [serializeForRustInto] at h
        | vBool b => simp [serializeForRustInto] at h
        | vInt b => simp [serializeForRustInto] at h
        | vLong b => simp [serializeForRustInto] at h
        | vFloat b => simp [serializeForRustInto] at h
        | vString s => simp [serializeForRustInto] at h
        | vRecord rn fv => simp [serializeForRustInto] at h
      | Record name =>
        cases v with
        | vRecord rname fvals =>
          simp only [serializeForRustInto, serializeForRustSize] at h ⊢
          cases hrec : lookupRecord env name with
          | none => simp [hrec] at h
          | some fields =>
            simp only [hrec] at h ⊢
            exact ih env _ bs h
        | vNull => simp [serializeForRustInto] at h
        | vBool b => simp [serializeForRustInto] at h
        | vInt b => simp [serializeForRustInto] at h
        | vLong b => simp [serializeForRustInto] at h
        | vFloat b => simp [serializeForRustInto] at h
        | vDouble b => simp [serializeForRustInto] at h
        | vString s => simp [serializeForRustInto] at h
      | Boolean =>
        simp only [serializeForRustInto, serializeForRustSize] at h ⊢
        exact ih env _ bs h
      | U64 =>
        simp only [serializeForRustInto, serializeForRustSize] at h ⊢
        exact ih env _ bs h
      | String =>
        simp only [serializeForRustInto, serializeForRustSize] at h ⊢
        exact ih env _ bs h
      | Bytes =>
        simp only [serializeForRustInto, serializeForRustSize] at h ⊢
        exact ih env _ bs h
      | Enum name =>
        simp only [serializeForRustInto, serializeForRustSize] at h ⊢
        exact ih env _ bs h
      | Optional t' =>
        simp only [serializeForRustInto, serializeForRustSize] at h ⊢
        exact ih env _ bs h
      | Object name =>
        simp only [serializeForRustInto, serializeForRustSize] at h ⊢
        exact ih env _ bs h
    | nullable v =>
      cases v with
      | vNull =>
        simp only [serializeForRustInto, serializeForRustSize,
          Option.some.injEq] at h ⊢
        subst h; simp
      | vBool b =>
        simp only [serializeForRustInto, serializeForRustSize] at h ⊢
        cases hd : serializeForRustInto env fuel (.dyn (.vBool b)) with
        | none => simp [hd] at h
        | some bs' =>
          simp only [hd, Option.some.injEq] at h
          simp only [ih env _ bs' hd]
          subst h
          simp only [List.length_cons, Option.some.injEq]
          omega
      | vInt b =>
        simp only [serializeForRustInto, serializeForRustSize] at h ⊢
        cases hd : serializeForRustInto env fuel (.dyn (.vInt b)) with
        | none => simp [hd] at h
        | some bs' =>
          simp only [hd, Option.some.injEq] at h
          simp only [ih env _ bs' hd]
          subst h
          simp only [List.length_cons, Option.some.injEq]
          omega
      | vLong b =>
        simp only [serializeForRustInto, serializeForRustSize] at h ⊢
        cases hd : serializeForRustInto env fuel (.dyn (.vLong b)) with
        | none => simp [hd] at h
        | some bs' =>
          simp only [hd, Option.some.injEq] at h
          simp only [ih env _ bs' hd]
          subst h
          simp only [List.length_cons, Option.some.injEq]
          omega
      | vFloat b =>
        simp only [serializeForRustInto, serializeForRustSize] at h ⊢
        cases hd : serializeForRustInto env fuel (.dyn (.vFloat b)) with
        | none => simp [hd] at h
        | some bs' =>
          simp only [hd, Option.some.injEq] at h
          simp only [ih env _ bs' hd]
          subst h
          simp only [List.length_cons, Option.some.injEq]
          omega
      | vDouble b =>
        simp only [serializeForRustInto, serializeForRustSize] at h ⊢
        cases hd : serializeForRustInto env fuel (.dyn (.vDouble b)) with
        | none => simp [hd] at h
        | some bs' =>
          simp only [hd, Option.some.injEq] at h
          simp only [ih env _ bs' hd]
          subst h
          simp only [List.length_cons, Option.some.injEq]
          omega
      | vString s =>
        simp only [serializeForRustInto, serializeForRustSize] at h ⊢
        cases hd : serializeForRustInto env fuel (.dyn (.vString s)) with
        | none => simp [hd] at h
        | some bs' =>
          simp only [hd, Option.some.injEq] at h
          simp only [ih env _ bs' hd]
          subst h
          simp only [List.length_cons, Option.some.injEq]
          omega
      | vRecord rname fvals =>
        simp only [serializeForRustInto, serializeForRustSize] at h ⊢
        cases hd : serializeForRustInto env fuel (.dyn (.vRecord rname fvals)) with
        | none => simp [hd] at h
        | some bs' =>
          simp only [hd, Option.some.injEq] at h
          simp only [ih env _ bs' hd]
          subst h
          simp only [List.length_cons, Option.some.injEq]
          omega
    | dyn v =>
      cases v with
      | vNull => simp [serializeForRustInto] at h
      | vBool b => simp [serializeForRustInto] at h
      | vLong b => simp [serializeForRustInto] at h
      | vString s => simp [serializeForRustInto] at h
      | vInt b =>
        simp only [serializeForRustInto, serializeForRustSize,
          Option.some.injEq] at h ⊢
        subst h; simp [length_be4]
      | vFloat b =>
        simp only [serializeForRustInto, serializeForRustSize,
          Option.some.injEq] at h ⊢
        subst h; simp [length_be4]
      | vDouble b =>
        simp only [serializeForRustInto, serializeForRustSize,
          Option.some.injEq] at h ⊢
        subst h; simp [length_be8]
      | vRecord rname fvals =>
        simp only [serializeForRustInto, serializeForRustSize] at h ⊢
        cases hrec : lookupRecord env rname with
        | none => simp [hrec] at h
        | some fields =>
          simp only [hrec] at h ⊢
          exact ih env _ bs h
    | fieldsOf fs vs =>
      cases fs with
      | nil =>
        cases vs with
        | nil =>
          simp only [serializeForRustInto, serializeForRustSize,
            Option.some.injEq] at h ⊢
          subst h; simp
        | cons v vs' => simp [serializeForRustInto] at h
      | cons f fs' =>
        cases vs with
        | nil => simp [serializeForRustInto] at h
        | cons v vs' =>
          simp only [serializeForRustInto, serializeForRustSize] at h ⊢
          cases h1 : serializeForRustInto env fuel (.typed f.2 v) with
          | none => simp [h1] at h
          | some a =>
            cases h2 : serializeForRustInto env fuel (.fieldsOf fs' vs') with
            | none => simp [h1, h2] at h
            | some b =>
              simp only [h1, h2, Option.some.injEq] at h
              simp only [ih env _ a h1, ih env _ b h2]
              subst h
              simp [List.length_append]

/-! ## Claims -/

/-- C1.  The claimed round trip `lift(sendThroughCodec(lower(v))) == v` fails
on the generated code for the required nested case
`Optional(Optional(U32))` with the present value 7 (the Kotlin host value of
type `Int??`, in which `Some(None)` and `Some(Some(7))` have no distinct
representation): lowering writes a single presence byte `[1, 0, 0, 0, 7]`
because the generic nullable serializer branches only on the runtime value,
the two-level decoder consumes two presence bytes and returns `null` after
reading only 2 bytes, and the trailing-junk check then raises the runtime
failure — so the round trip yields a failure, not the value.  A single
`Optional` level and the `null` value do round-trip. -/
theorem roundtrip_nested_optional_fails :
    roundTrip [] 12 (.Optional (.Optional .U32)) (.vInt 7) = none
    ∧ (lowerValue [] 12 (.Optional (.Optional .U32)) (.vInt 7)).2 = some [1, 0, 0, 0, 7]
    ∧ deserializeItem [] 12 (.Optional (.Optional .U32)) [1, 0, 0, 0, 7]
        = some (.vNull, [0, 0, 7])
    ∧ roundTrip [] 12 (.Optional .U32) (.vInt 7) = some (.vInt 7)
    ∧ roundTrip [] 12 (.Optional (.Optional .U32)) .vNull = some .vNull :=
  ⟨rfl, rfl, rfl, rfl, rfl⟩

/-- C2.  For an enum with values `[A, B, C]`: the generated `fromOrdinal`
uses 1-based case labels, so lifting 2 yields `B` and lifting 0 or 4 raises
the runtime failure, as claimed — but the emitted lowering is Kotlin's
`.ordinal`, which is the 0-based index, so lowering `B` yields 1, not the
claimed 2, and lowering followed by lifting maps `B` to `A`. -/
theorem enum_ordinal_mismatch :
    kotlinEnumOrdinal ["A", "B", "C"] "B" = some 1
    ∧ fromOrdinal ["A", "B", "C"] 2 = some "B"
    ∧ fromOrdinal ["A", "B", "C"] 0 = none
    ∧ fromOrdinal ["A", "B", "C"] 4 = none
    ∧ enumRoundTrip ["A", "B", "C"] "B" = some "A"
    ∧ lower_kt "v" (.Enum "Color") = .ok "v.ordinal" := by
  refine ⟨by decide, by decide, by decide, by decide, by decide, rfl⟩

/-- C3.  The decoder generated by `deserialize_item_kt` does read exactly one
presence byte per `Optional` nesting level (absent stops, present recurses,
and two nested levels consume two presence bytes), but the encoder does not
mirror it: serializing the present value 7 at declared type
`Optional(Optional(U32))` writes a single presence byte, `[1, 0, 0, 0, 7]`,
not the per-level `[1, 1, 0, 0, 0, 7]` that the decoder expects, because the
generic nullable serializer is driven by the runtime value's nullness
alone. -/
theorem nested_optional_wire_layout :
    (∀ (env : RecordEnv) (fuel : Nat) (t : TypeReference) (bs : List Nat),
      deserializeItem env (fuel + 1) (.Optional t) (0 :: bs) = some (.vNull, bs))
    ∧ (∀ (env : RecordEnv) (fuel : Nat) (t : TypeReference) (bs : List Nat),
      deserializeItem env (fuel + 1) (.Optional t) (1 :: bs)
        = deserializeItem env fuel t bs)
    ∧ (∀ (env : RecordEnv) (fuel : Nat) (t : TypeReference) (bs : List Nat),
      deserializeItem env (fuel + 2) (.Optional (.Optional t)) (1 :: 1 :: bs)
        = deserializeItem env fuel t bs)
    ∧ serializeForRustInto [] 12 (.typed (.Optional (.Optional .U32)) (.vInt 7))
        = some [1, 0, 0, 0, 7]
    ∧ [1, 0, 0, 0, 7] ≠ [1, 1, 0, 0, 0, 7]
    ∧ deserializeItem [] 12 (.Optional (.Optional .U32)) [1, 1, 0, 0, 0, 7]
        = some (.vInt 7, []) :=
  ⟨fun _ _ _ _ => rfl, fun _ _ _ _ => rfl, fun _ _ _ _ => rfl, rfl,
    by decide, rfl⟩

/-- C4.  Size/encode consistency: for every declared type and value on which
the emitted `serializeForRustInto` produces bytes, the emitted
`serializeForRustSize` computes exactly the number of bytes written, so the
single up-front allocation is exactly filled. -/
theorem size_encode_consistency (env : RecordEnv) (fuel : Nat)
    (t : TypeReference) (v : KValue) (bs : List Nat)
    (h : serializeForRustInto env fuel (.typed t v) = some bs) :
    serializeForRustSize env fuel (.typed t v) = some bs.length :=
  size_into_agree fuel env (.typed t v) bs h

/-- Witness for C4 at the record `Point(x: U32, y: Optional(Boolean))` with
value `{x: 42, y: null}`: the encoder writes 5 bytes and the size helper
computes 5. -/
theorem size_encode_consistency_witness :
    serializeForRustSize [("Point", [("x", .U32), ("y", .Optional .Boolean)])]
      12 (.typed (.Record "Point") (.vRecord "Point" [.vInt 42, .vNull]))
      = some 5 :=
  size_encode_consistency [("Point", [("x", .U32), ("y", .Optional .Boolean)])]
    12 (.Record "Point") (.vRecord "Point" [.vInt 42, .vNull])
    [0, 0, 0, 42, 0] rfl

/-- C5.  Encode-path buffer release: in `serializeForRust`, once the size
computation has succeeded the native allocator is called, and if the write
step then raises any failure the generated `catch` block frees that buffer
exactly once and re-propagates the failure. -/
theorem encode_failure_frees_buffer (size : Option Nat) (n : Nat)
    (written : Option (List Nat)) (hs : size = some n) (hw : written = none) :
    serializeForRust size written = ([.alloc 0, .free 0], none)
    ∧ ((serializeForRust size written).1.count (.free 0) = 1) := by
  subst hs; subst hw
  exact ⟨rfl, rfl⟩

/-- Witness for C5: an encode failure injected mid-record (a `Long` field,
whose value has no serializer helper, after a successfully written `U32`
field) makes the write step fail while the trace shows exactly one
allocation followed by exactly one free. -/
theorem encode_failure_frees_buffer_witness :
    serializeForRust (some 5)
        (serializeForRustInto [("Wrap", [("a", .U32), ("b", .U64)])] 12
          (.typed (.Record "Wrap") (.vRecord "Wrap" [.vInt 1, .vLong 2])))
      = ([.alloc 0, .free 0], none)
    ∧ ((serializeForRust (some 5)
        (serializeForRustInto [("Wrap", [("a", .U32), ("b", .U64)])] 12
          (.typed (.Record "Wrap") (.vRecord "Wrap" [.vInt 1, .vLong 2])))).1.count
        (.free 0) = 1) :=
  encode_failure_frees_buffer (some 5) 5
    (serializeForRustInto [("Wrap", [("a", .U32), ("b", .U64)])] 12
      (.typed (.Record "Wrap") (.vRecord "Wrap" [.vInt 1, .vLong 2])))
    rfl rfl

/-- C6.  Decode-path integrity and cleanup: `deserializeFromRust` frees the
received buffer exactly once on every path, raises a failure when the item
decoder itself fails, raises a failure when unread bytes remain after
decoding, and returns the item only when the buffer was consumed exactly. -/
theorem decode_junk_check_and_cleanup (decoded : Option (KValue × List Nat)) :
    (deserializeFromRust decoded).1 = [.free 0]
    ∧ (decoded = none → (deserializeFromRust decoded).2 = none)
    ∧ (∀ (v : KValue) (rest : List Nat),
        decoded = some (v, rest) → rest ≠ [] →
        (deserializeFromRust decoded).2 = none)
    ∧ (∀ v : KValue, decoded = some (v, []) →
        (deserializeFromRust decoded).2 = some v) := by
  refine ⟨?_, ?_, ?_, ?_⟩
  · cases decoded with
    | none => rfl
    | some p =>
      obtain ⟨v, rest⟩ := p
      by_cases hr : rest = [] <;> simp [deserializeFromRust, hr]
  · intro h; subst h; rfl
  · intro v rest h hne; subst h; simp [deserializeFromRust, hne]
  · intro v h; subst h; rfl

/-- Witness for C6: decoding a `U32` from the 5-byte buffer
`[0, 0, 0, 7, 9]` succeeds with the trailing byte `9` unread, so the result
is the runtime failure, and the trace still contains the single free. -/
theorem decode_junk_check_and_cleanup_witness :
    (deserializeFromRust (deserializeItem [] 12 .U32 [0, 0, 0, 7, 9])).2 = none
    ∧ (deserializeFromRust (deserializeItem [] 12 .U32 [0, 0, 0, 7, 9])).1
        = [.free 0] :=
  ⟨(decode_junk_check_and_cleanup
      (deserializeItem [] 12 .U32 [0, 0, 0, 7, 9])).2.2.1
      (.vInt 7) [9] rfl (by decide),
    (decode_junk_check_and_cleanup
      (deserializeItem [] 12 .U32 [0, 0, 0, 7, 9])).1⟩

/-- C7 (counterexample).  The claim that the generation-time diagnostic
identifies the interface item that referenced the unsupported type is false:
for a function `frobnicate` with an argument of type `Object("Thing")`, the
emitted diagnostic is exactly the panic message
`[TODO: LOWER_KT Object("Thing")]` — it contains the unsupported type's
rendering but does not mention `frobnicate` (the filters never receive the
referencing item). -/
theorem unsupported_variant_diag_counterexample :
    lower_kt "arg0" (.Object "Thing")
      = .error "[TODO: LOWER_KT Object(\"Thing\")]"
    ∧ occursIn "Object(\"Thing\")".data
        "[TODO: LOWER_KT Object(\"Thing\")]".data = true
    ∧ occursIn "frobnicate".data
        "[TODO: LOWER_KT Object(\"Thing\")]".data = false :=
  ⟨rfl, by decide, by decide⟩

/-- C7 (amended).  Whenever a `TypeReference` variant outside the supported
set (the `Object` variant) reaches the mapper in argument, return, lowering,
or lifting position, generation aborts (the wildcard arm panics) with a
diagnostic that embeds the Debug rendering of the unsupported type; the
diagnostic does not name the referencing interface item. -/
theorem unsupported_variant_aborts (nm name : String) :
    decl_c_argument (.Object name)
        = .error ("[TODO: decl_c_argument(" ++ tyDebug (.Object name) ++ ")]")
    ∧ decl_c_return (.Object name)
        = .error ("[TODO: decl_c_argument(" ++ tyDebug (.Object name) ++ ")]")
    ∧ lower_kt nm (.Object name)
        = .error ("[TODO: LOWER_KT " ++ tyDebug (.Object name) ++ "]")
    ∧ lift_kt nm (.Object name)
        = .error ("[TODO: LIFT_KT " ++ tyDebug (.Object name) ++ "]") :=
  ⟨rfl, rfl, rfl, rfl⟩

/-- C8.  The record `[x: U32, y: Optional(Boolean)]` with value
`{x: 42, y: null}` encodes to exactly the five bytes
`[0x00, 0x00, 0x00, 0x2A, 0x00]` (4-byte big-endian 42, then the absent
presence byte), decoding that byte sequence reconstructs the same value with
no bytes left over, and the full round trip through the codec returns the
value. -/
theorem record_field_order_bytes :
    serializeForRustInto [("Point", [("x", .U32), ("y", .Optional .Boolean)])]
        12 (.typed (.Record "Point") (.vRecord "Point" [.vInt 42, .vNull]))
      = some [0x00, 0x00, 0x00, 0x2A, 0x00]
    ∧ deserializeItem [("Point", [("x", .U32), ("y", .Optional .Boolean)])]
        12 (.Record "Point") [0x00, 0x00, 0x00, 0x2A, 0x00]
      = some (.vRecord "Point" [.vInt 42, .vNull], [])
    ∧ roundTrip [("Point", [("x", .U32), ("y", .Optional .Boolean)])]
        12 (.Record "Point") (.vRecord "Point" [.vInt 42, .vNull])
      = some (.vRecord "Point" [.vInt 42, .vNull]) :=
  ⟨rfl, rfl, rfl⟩

/-- C9.  The emitted helper block declares non-nullable buffer serializers
for exactly the scalar receivers `Int`, `Float` and `Double`; none is
emitted for `Long`, `Boolean`, `Byte` or `String`; the record emitter
produces one `serializeForRustInto` call per field unconditionally,
whatever the field's type; and consequently serializing a `Long`, `Boolean`
or `String` field value fails (only the generic nullable extension applies,
and its non-null branch has no serializer to dispatch to). -/
theorem helper_coverage :
    scalarSerializerReceivers = ["Int", "Float", "Double"]
    ∧ ("Long" ∉ scalarSerializerReceivers
        ∧ "Boolean" ∉ scalarSerializerReceivers
        ∧ "Byte" ∉ scalarSerializerReceivers
        ∧ "String" ∉ scalarSerializerReceivers)
    ∧ (decl_kt .U64 = .ok "Long"
        ∧ decl_kt .Boolean = .ok "Boolean"
        ∧ decl_kt .String = .ok "String")
    ∧ (∀ fields : List FieldDef,
        (recordSerializeIntoCalls fields).length = fields.length)
    ∧ (∀ (nm : String) (t : TypeReference),
        recordSerializeIntoCalls [(nm, t)]
          = ["this." ++ nm ++ ".serializeForRustInto(buf)"])
    ∧ (serializeForRustInto [] 12 (.typed .U64 (.vLong 0)) = none
        ∧ serializeForRustInto [] 12 (.typed .Boolean (.vBool true)) = none
        ∧ serializeForRustInto [] 12 (.typed .String (.vString "s")) = none) := by
  refine ⟨rfl, ⟨by decide, by decide, by decide, by decide⟩, ⟨rfl, rfl, rfl⟩,
    ?_, fun nm t => rfl, ⟨rfl, rfl, rfl⟩⟩
  intro fields
  simp [recordSerializeIntoCalls]

/-- C10.  Every emitted wrapper with a return type calls through
`_UniFFILib.INSTANCE`, every emitted wrapper without a return type calls
through `UniFFILib.INSTANCE` (no leading underscore), the two handles
differ, the no-return call text never mentions `_UniFFILib`, and
`UniFFILib` is not among the type names the output declares (the library
interface is declared only as `_UniFFILib`), provided no user enum or
record is itself named `UniFFILib`. -/
theorem library_handle_naming :
    (∀ (f : String) (args : List String),
      wrapperCallWithReturn f args
        = ("val _retval = " ++ ffiLibraryInterfaceName ++ ".INSTANCE.") ++ f
            ++ "(" ++ String.intercalate ", " args ++ ")")
    ∧ (∀ (f : String) (args : List String),
      wrapperCallNoReturn f args
        = ("UniFFILib" ++ ".INSTANCE.") ++ f
            ++ "(" ++ String.intercalate ", " args ++ ")")
    ∧ "UniFFILib" ≠ ffiLibraryInterfaceName
    ∧ occursIn "_UniFFILib".data (wrapperCallNoReturn "do_it" ["a"]).data = false
    ∧ (∀ enumNames recordNames : List String,
        "UniFFILib" ∉ enumNames → "UniFFILib" ∉ recordNames →
        "UniFFILib" ∉ emittedTypeDeclarations enumNames recordNames)
    ∧ "_UniFFILib" ∈ emittedTypeDeclarations [] [] := by
  refine ⟨fun f args => rfl, fun f args => rfl, by decide, by decide, ?_,
    by decide⟩
  intro enumNames recordNames h1 h2 hmem
  rcases List.mem_append.mp hmem with h | h
  · rcases List.mem_append.mp h with h' | h'
    · exact absurd h' (by decide)
    · exact h1 h'
  · exact h2 h

/-- Witness for C10 with concrete enum and record name lists. -/
theorem library_handle_naming_witness :
    "UniFFILib" ∉ emittedTypeDeclarations ["Color"] ["Point"] :=
  library_handle_naming.2.2.2.2.1 ["Color"] ["Point"] (by decide) (by decide)

end GenKotlin
